import Mathlib

/-!
Shallow embedding of the toil cluster-provisioning core
(`src/toil/provisioners/abstractProvisioner.py`) and of the grid-engine
job adapter (`src/toil/batchSystems/gridengine.py`), together with
theorems settling the frozen claims about the natural-language spec.

Numeric conventions: Python `int` fields are embedded as `Int`/`Nat`,
fields typed `Union[int, float]` in the source (wallTime, cores, bids)
are embedded as `ℚ`, and Python `bool` as `Bool` (with Mathlib's linear
order on `Bool`, where `false < true`, matching Python's `False < True`).
-/

namespace Toil

/-! Python `dict`s are embedded as insertion-ordered association lists:
assignment `d[k] = v` updates the first binding of `k` in place if present
and appends otherwise; lookup returns the first binding. -/

/-! Embedding of `AbstractProvisioner.InstanceConfiguration`. Strings are
rendered exactly as `json.dumps(config, separators=(',', ':'))` renders the
Python dicts built by the source (`ensure_ascii` escaping, insertion
order); file contents are percent-encoded as in
`urllib.parse.quote(contents.encode('utf-8'))`. -/

/-! Embedding of the grid-engine adapter (`gridengine.py`) and of the
SSH-backed authentication step. Strings coming from external tools are
processed as character lists through the helpers below, which mirror the
Python string methods used by the source. -/

/-- Embedding of `Shape` from `abstractProvisioner.py`: wall time, memory,
cores, disk and preemptibility of a node or job. -/
structure Shape where
  wallTime : ℚ
  memory : Int
  cores : ℚ
  disk : Int
  preemptible : Bool
deriving DecidableEq, Repr

/-- Embedding of `Shape.__eq__`: field-wise equality of all five fields. -/
def Shape.shape_eq (self other : Shape) : Bool :=
  decide (self.wallTime = other.wallTime) &&
  decide (self.memory = other.memory) &&
  decide (self.cores = other.cores) &&
  decide (self.disk = other.disk) &&
  decide (self.preemptible = other.preemptible)

/-- Embedding of `Shape.greater_than`: the `if`/`elif` chain from the
source, comparing preemptibility first (Python bool order: `False < True`),
then memory, cores, disk, wallTime. -/
def Shape.greater_than (self other : Shape) : Bool :=
  if self.preemptible < other.preemptible then true
  else if self.preemptible > other.preemptible then false
  else if self.memory > other.memory then true
  else if self.memory < other.memory then false
  else if self.cores > other.cores then true
  else if self.cores < other.cores then false
  else if self.disk > other.disk then true
  else if self.disk < other.disk then false
  else if self.wallTime > other.wallTime then true
  else if self.wallTime < other.wallTime then false
  else false

/-- Lexicographic sort key realizing `greater_than`: `a.greater_than b`
iff `b.sortKey < a.sortKey` (preemptibility negated so that
non-preemptible shapes get the larger key). -/
def Shape.sortKey (s : Shape) : Bool ×ₗ Int ×ₗ ℚ ×ₗ Int ×ₗ ℚ :=
  toLex (!s.preemptible, toLex (s.memory, toLex (s.cores, toLex (s.disk, s.wallTime))))

/-- Python dict assignment `d[k] = v`. -/
def dictInsert {k v : Type} [DecidableEq k] : List (k × v) → k → v → List (k × v)
  | [], key, val => [(key, val)]
  | (k0, v0) :: rest, key, val =>
    if k0 = key then (k0, val) :: rest else (k0, v0) :: dictInsert rest key val

/-- Python dict lookup `d[k]` / `d.get(k)`. -/
def dictLookup {k v : Type} [DecidableEq k] : List (k × v) → k → Option v
  | [], _ => none
  | (k0, v0) :: rest, key => if k0 = key then some v0 else dictLookup rest key

/-- A node-type spec as parsed by `parse_node_types`: an equivalence class
of instance-type names paired with an optional spot bid. The Python set of
names is embedded as a list in iteration order. -/
abbrev NodeTypeSpec : Type := List String × Option ℚ

/-- The autoscaling state of `AbstractProvisioner`: `_spotBidsMap` (keyed
by the `frozenset` of the class's instance-type names) and
`_shape_to_instance_type`. -/
structure ProvState where
  spotBidsMap : List (Finset String × ℚ)
  shape_to_instance_type : List (Shape × String)
deriving DecidableEq

/-- The body of the inner loop of `setAutoscaledNodeTypes`: record one
instance type's shape and name in `_shape_to_instance_type`. -/
def recordInstanceType (getNodeShape : String → Bool → Shape) (preemptible : Bool)
    (a : ProvState) (instance_type_name : String) : ProvState :=
  let shape := getNodeShape instance_type_name preemptible
  { a with shape_to_instance_type := dictInsert a.shape_to_instance_type shape instance_type_name }

/-- The body of the outer loop of `setAutoscaledNodeTypes`: process one
node-type equivalence class (spot bid, then every instance type in it). -/
def autoscaleStep (getNodeShape : String → Bool → Shape)
    (acc : ProvState) (node_type : NodeTypeSpec) : ProvState :=
  let preemptible := node_type.2.isSome
  let acc1 := (match node_type.2 with
    | some bid => { acc with spotBidsMap := dictInsert acc.spotBidsMap node_type.1.toFinset bid }
    | none => acc)
  node_type.1.foldl (recordInstanceType getNodeShape preemptible) acc1

/-- Embedding of `AbstractProvisioner.setAutoscaledNodeTypes`. The method
starts by assigning fresh empty dicts to both attributes, so the incoming
state `_st` is ignored, exactly as in the source. `getNodeShape` stands for
the abstract method of the same name. -/
def setAutoscaledNodeTypes (getNodeShape : String → Bool → Shape)
    (_st : ProvState) (nodeTypes : List NodeTypeSpec) : ProvState :=
  nodeTypes.foldl (autoscaleStep getNodeShape)
    { spotBidsMap := [], shape_to_instance_type := [] }

/-- The per-instance-type processing order of one `setAutoscaledNodeTypes`
call: every configured class's names in order, tagged with the class's
preemptibility. -/
def flattenSpecs (nodeTypes : List NodeTypeSpec) : List (String × Bool) :=
  nodeTypes.flatMap (fun nt => nt.1.map (fun n => (n, nt.2.isSome)))

/-- Effect of one `setAutoscaledNodeTypes` insertion step on the shape
table alone. -/
def shapeTableIns (getNodeShape : String → Bool → Shape)
    (d : List (Shape × String)) (p : String × Bool) : List (Shape × String) :=
  dictInsert d (getNodeShape p.1 p.2) p.1

/-- Uppercase hex digit, as used by `urllib.parse.quote`. -/
def hexUpper (n : Nat) : Char := "0123456789ABCDEF".toList.getD n '0'

/-- Lowercase hex digit, as used by `json.dumps` unicode escapes. -/
def hexLower (n : Nat) : Char := "0123456789abcdef".toList.getD n '0'

/-- One byte of `urllib.parse.quote` output with the default `safe='/'`:
unreserved ASCII characters and the slash pass through, every other byte
becomes `%XX`. -/
def quoteByte (b : UInt8) : String :=
  let c := Char.ofNat b.toNat
  if b.toNat < 128 &&
      (c.isAlphanum || c = Char.ofNat 95 || c = Char.ofNat 46 || c = Char.ofNat 45 ||
       c = Char.ofNat 126 || c = Char.ofNat 47) then
    String.singleton c
  else
    "%" ++ String.singleton (hexUpper (b.toNat / 16)) ++ String.singleton (hexUpper (b.toNat % 16))

/-- `urllib.parse.quote(s.encode('utf-8'), safe='/')`, acting on the
UTF-8 encoding of the string. -/
def urlquote (s : String) : String :=
  String.join ((s.toList.flatMap String.utf8EncodeChar).map quoteByte)

/-- Four-digit hex, as in a `\uXXXX` escape. -/
def hex4 (n : Nat) : String :=
  String.mk [hexLower (n / 4096 % 16), hexLower (n / 256 % 16), hexLower (n / 16 % 16),
    hexLower (n % 16)]

/-- How `json.dumps` (default `ensure_ascii=True`) renders one character of
a string value: printable ASCII passes through, `"` and backslash get a
short escape, the named control characters get their two-character escape,
everything else becomes `\uXXXX` (with surrogate pairs above `0xFFFF`). -/
def jsonEscapeChar (c : Char) : String :=
  if c = Char.ofNat 34 then "\\" ++ "\"" 
  else if c = Char.ofNat 92 then "\\\\"
  else if c = Char.ofNat 10 then "\\n"
  else if c = Char.ofNat 9 then "\\t"
  else if c = Char.ofNat 13 then "\\r"
  else if c = Char.ofNat 8 then "\\b"
  else if c = Char.ofNat 12 then "\\f"
  else if c.toNat < 32 then "\\u" ++ hex4 c.toNat
  else if c.toNat ≤ 126 then String.singleton c
  else if c.toNat < 65536 then "\\u" ++ hex4 c.toNat
  else
    "\\u" ++ hex4 (55296 + (c.toNat - 65536) / 1024) ++
    "\\u" ++ hex4 (56320 + (c.toNat - 65536) % 1024)

/-- `json.dumps` rendering of a string value, quotes included. -/
def jstr (s : String) : String :=
  "\"" ++ String.join (s.toList.map jsonEscapeChar) ++ "\""

/-- The `mode` argument of `addFile`: `Union[str, int]`. -/
abbrev ModeArg : Type := String ⊕ Nat

/-- Python `int(s, 8)` restricted to plain octal numerals; `none` models
the `ValueError` raised on anything else. -/
def parseOctal (s : String) : Option Nat :=
  if s.toList.isEmpty then none
  else if s.toList.all (fun c => decide (Char.ofNat 48 ≤ c) && decide (c ≤ Char.ofNat 55)) then
    some (s.toList.foldl (fun n c => n * 8 + (c.toNat - 48)) 0)
  else none

/-- Mode normalization in `addFile`: a string is parsed as octal, an int is
kept (`assert isinstance(mode, int)`). -/
def normMode : ModeArg → Option Nat
  | .inl s => parseOctal s
  | .inr n => some n

/-- One entry of `InstanceConfiguration.files`: the keys of the
`ignition_file` dict (the `append` key is present only when requested). -/
structure IgnFile where
  path : String
  filesystem : String
  mode : Nat
  source : String
  append : Bool
deriving DecidableEq, Repr

/-- One entry of `InstanceConfiguration.units`. -/
structure IgnUnit where
  name : String
  enabled : Bool
  contents : String
deriving DecidableEq, Repr

/-- Embedding of `AbstractProvisioner.InstanceConfiguration`: ordered
accumulators for files, systemd units and authorized SSH keys. -/
structure InstanceConfiguration where
  files : List IgnFile
  units : List IgnUnit
  sshPublicKeys : List String
deriving DecidableEq, Repr

/-- Embedding of `InstanceConfiguration.__init__`. -/
def InstanceConfiguration.new : InstanceConfiguration :=
  { files := [], units := [], sshPublicKeys := [] }

/-- Embedding of `InstanceConfiguration.addFile`: normalizes the mode
(`none` models the `ValueError` from an unparsable octal string), embeds
the contents as a percent-encoded `data:` URI and appends the file dict. -/
def InstanceConfiguration.addFile (c : InstanceConfiguration) (path : String)
    (filesystem : String) (mode : ModeArg) (contents : String) (append : Bool) :
    Option InstanceConfiguration :=
  match normMode mode with
  | none => none
  | some m =>
    some { c with files := c.files ++
      [{ path := path, filesystem := filesystem, mode := m,
         source := "data:," ++ urlquote contents, append := append }] }

/-- Embedding of `InstanceConfiguration.addUnit`. -/
def InstanceConfiguration.addUnit (c : InstanceConfiguration) (name : String)
    (enabled : Bool) (contents : String) : InstanceConfiguration :=
  { c with units := c.units ++ [{ name := name, enabled := enabled, contents := contents }] }

/-- Embedding of `InstanceConfiguration.addSSHRSAKey`. -/
def InstanceConfiguration.addSSHRSAKey (c : InstanceConfiguration)
    (keyData : String) : InstanceConfiguration :=
  { c with sshPublicKeys := c.sshPublicKeys ++ ["ssh-rsa " ++ keyData] }

/-- `json.dumps` rendering of one `files` entry, in dict insertion order
(`path`, `filesystem`, `mode`, `contents`, then `append` if set). -/
def renderIgnFile (f : IgnFile) : String :=
  "\x7b\"path\":" ++ jstr f.path ++ ",\"filesystem\":" ++ jstr f.filesystem ++
  ",\"mode\":" ++ toString f.mode ++ ",\"contents\":\x7b\"source\":" ++ jstr f.source ++
  "\x7d" ++ (if f.append then ",\"append\":true" else "") ++ "\x7d"

/-- `json.dumps` rendering of one `units` entry. -/
def renderIgnUnit (u : IgnUnit) : String :=
  "\x7b\"name\":" ++ jstr u.name ++ ",\"enabled\":" ++
  (if u.enabled then "true" else "false") ++ ",\"contents\":" ++ jstr u.contents ++ "\x7d"

/-- `json.dumps` rendering of the conditional `passwd.users` value: the
single `core` user carrying all accumulated keys. -/
def renderUsers (keys : List String) : String :=
  "[\x7b\"name\":\"core\",\"sshAuthorizedKeys\":[" ++
  String.intercalate "," (keys.map jstr) ++ "]\x7d]"

/-- The top-level config dict built by `toIgnitionConfig`, as an ordered
list of key/rendered-value pairs: `ignition`, `storage`, `systemd`, and
`passwd` only when at least one SSH key was added. -/
def ignitionDict (c : InstanceConfiguration) : List (String × String) :=
  [("ignition", "\x7b\"version\":\"2.2.0\"\x7d"),
   ("storage", "\x7b\"files\":[" ++
      String.intercalate "," (c.files.map renderIgnFile) ++ "]\x7d"),
   ("systemd", "\x7b\"units\":[" ++
      String.intercalate "," (c.units.map renderIgnUnit) ++ "]\x7d")] ++
  (if c.sshPublicKeys.length > 0 then
    [("passwd", "\x7b\"users\":" ++ renderUsers c.sshPublicKeys ++ "\x7d")]
   else [])

/-- Embedding of `InstanceConfiguration.toIgnitionConfig`:
`json.dumps(config, separators=(',', ':'))` of the dict above. -/
def InstanceConfiguration.toIgnitionConfig (c : InstanceConfiguration) : String :=
  "\x7b" ++
  String.intercalate ","
    ((ignitionDict c).map (fun kv => "\"" ++ kv.1 ++ "\":" ++ kv.2)) ++
  "\x7d"

/-- Embedding of the redirect document built at the end of
`AbstractProvisioner._getIgnitionUserData` when the rendered config
exceeds the user-data limit: a minimal Ignition config whose only content
is the replacement source URL. -/
def ignitionRedirect (src : String) : String :=
  "\x7b\"ignition\":\x7b\"version\":\"2.2.0\",\"config\":\x7b\"replace\":\x7b\"source\":" ++
  jstr src ++ "\x7d\x7d\x7d\x7d"

/-- Embedding of the size-limit tail of
`AbstractProvisioner._getIgnitionUserData` (after the config has been
rendered to `user_data`): compare against `_get_user_data_limit()`, and on
overflow upload the full document under `configs/{role}/config-{uuid}.ign`
and return the redirect document. `write_file_to_cloud` abstracts
`_write_file_to_cloud` (key and contents to public URL); the second
component records the uploads performed. The rendered document is ASCII
(`ensure_ascii` escaping), so `len(user_data)` is its byte size. -/
def getIgnitionUserDataTail (user_data : String) (user_data_limit : Nat)
    (role : String) (uuid : String) (write_file_to_cloud : String → String → String) :
    String × List (String × String) :=
  if user_data.length > user_data_limit then
    let key := "configs/" ++ role ++ "/config-" ++ uuid ++ ".ign"
    (ignitionRedirect (write_file_to_cloud key user_data), [(key, user_data)])
  else (user_data, [])

/-- Python `s.split(sep)` with a one-character separator: splits on every
occurrence, keeping empty fields. -/
def splitOnChar (sep : Char) : List Char → List (List Char)
  | [] => [[]]
  | x :: xs =>
    match splitOnChar sep xs with
    | [] => [[]]
    | g :: gs => if x = sep then [] :: g :: gs else (x :: g) :: gs

/-- Helper for `pySplitWs`: accumulates the current (reversed) token. -/
def pySplitWsAux (cur : List Char) : List Char → List (List Char)
  | [] => if cur.isEmpty then [] else [cur.reverse]
  | x :: xs =>
    if x.isWhitespace then
      if cur.isEmpty then pySplitWsAux [] xs else cur.reverse :: pySplitWsAux [] xs
    else pySplitWsAux (x :: cur) xs

/-- Python `str.split()` with no argument: split on whitespace runs,
dropping empty tokens. -/
def pySplitWs (l : List Char) : List (List Char) := pySplitWsAux [] l

/-- Digit-string value; `none` when empty or not all digits. -/
def parseDigits (l : List Char) : Option Nat :=
  if l.isEmpty then none
  else if l.all (fun c => c.isDigit) then
    some (l.foldl (fun n c => n * 10 + (c.toNat - 48)) 0)
  else none

/-- Python `int(token)` on a whitespace-free token: optional sign and a
nonempty digit string; `none` models the `ValueError` on anything else. -/
def pyInt (l : List Char) : Option Int :=
  match l with
  | [] => none
  | c :: rest =>
    if c = Char.ofNat 45 then (parseDigits rest).map (fun n => -(n : Int))
    else if c = Char.ofNat 43 then (parseDigits rest).map (fun n => (n : Int))
    else (parseDigits l).map (fun n => (n : Int))

/-- Python `needle in hay` on strings: substring containment. -/
def hasSubstr : List Char → List Char → Bool
  | [], needle => needle.isEmpty
  | x :: t, needle => needle.isPrefixOf (x :: t) || hasSubstr t needle

/-- Python `s.startswith(pre)`. -/
def pyStartsWith (s pre : String) : Bool := pre.toList.isPrefixOf s.toList

/-- Outcome of the live-queue query `call_command(["qstat", "-j", job])`:
success (the job is known) or a `CalledProcessErrorStderr` carrying the
stderr text. -/
inductive QstatResult where
  | ok : QstatResult
  | err (stderr : String) : QstatResult
deriving DecidableEq, Repr

/-- Exceptions escaping `getJobExitCode`. -/
inductive GEError where
  | assertionError : GEError
  | calledProcessError (stderr : String) : GEError
  | valueError : GEError
  | indexError : GEError
deriving DecidableEq, Repr

/-- The `qacct` output scan of `getJobExitCode`: for each line, a line
starting with `failed` whose second token parses to `1` yields exit code
1; otherwise a line starting with `exit_status` yields its parsed second
token; a missing or unparsable token is an exception; no matching line
means still-running (`none`). -/
def scanQacct : List (List Char) → Except GEError (Option Int)
  | [] => .ok none
  | line :: rest =>
    if "failed".toList.isPrefixOf line then
      match pySplitWs line with
      | _ :: tok :: _ =>
        (match pyInt tok with
         | some v => if v = 1 then .ok (some 1) else scanQacct rest
         | none => .error .valueError)
      | _ => .error .indexError
    else if "exit_status".toList.isPrefixOf line then
      match pySplitWs line with
      | _ :: tok :: _ =>
        (match pyInt tok with
         | some v => .ok (some v)
         | none => .error .valueError)
      | _ => .error .indexError
    else scanQacct rest

/-- A `qacct` line the scan of `getJobExitCode` passes over without
returning or raising: either it carries neither relevant prefix, or it is
a `failed` line whose second token parses to a value other than 1 (such as
the `failed 0` line of a normal accounting record, which the loop skips on
its way to `exit_status`). -/
def skippedQacctLine (l : List Char) : Prop :=
  ("failed".toList.isPrefixOf l = false ∧ "exit_status".toList.isPrefixOf l = false) ∨
  ("failed".toList.isPrefixOf l = true ∧
    ∃ tok v, (pySplitWs l).get? 1 = some tok ∧ pyInt tok = some v ∧ v ≠ 1)

/-- The `CalledProcessErrorStderr` signature recognized as "job not
found" by `getJobExitCode`. -/
def qstatNotFoundMarker : String := "Following jobs do not exist"

/-- Embedding of `GridEngineThread.getJobExitCode`: a job id with a task
part fails the `assert`; a successful `qstat` means still running; a
`qstat` failure carrying the "job not found" signature falls back to
scanning the `qacct` output; any other `qstat` failure propagates. -/
def getJobExitCode (sgeJobID : String) (qstat : QstatResult) (qacctStdout : String) :
    Except GEError (Option Int) :=
  if sgeJobID.toList.contains (Char.ofNat 46) then .error .assertionError
  else
    match qstat with
    | .ok => .ok none
    | .err stderr =>
      if hasSubstr stderr.toList qstatNotFoundMarker.toList then
        scanQacct (splitOnChar (Char.ofNat 10) qacctStdout.toList)
      else .error (.calledProcessError stderr)

/-- A single quote character, for `shlex.quote` output. -/
def singleQuote : String := String.singleton (Char.ofNat 39)

/-- The characters `shlex.quote` treats as safe: ASCII letters and
digits, underscore, `@`, `%`, `+`, `=`, `:`, comma, dot, slash, hyphen. -/
def shlexSafeChar (c : Char) : Bool :=
  c.isAlphanum || c = Char.ofNat 95 || c = Char.ofNat 64 || c = Char.ofNat 37 ||
  c = Char.ofNat 43 || c = Char.ofNat 61 || c = Char.ofNat 58 || c = Char.ofNat 44 ||
  c = Char.ofNat 46 || c = Char.ofNat 47 || c = Char.ofNat 45

/-- Python `shlex.quote` as used for environment values. -/
def shlexQuote (s : String) : String :=
  if s.toList.isEmpty then singleQuote ++ singleQuote
  else if s.toList.all shlexSafeChar then s
  else
    singleQuote ++
    String.mk (s.toList.flatMap (fun c =>
      if c = Char.ofNat 39 then
        (singleQuote ++ "\"" ++ singleQuote ++ "\"" ++ singleQuote).toList
      else [c])) ++
    singleQuote

/-- Python `",".join(strs)`. -/
def joinWith (sep : String) : List String → String
  | [] => ""
  | [x] => x
  | x :: y :: xs => x ++ sep ++ joinWith sep (y :: xs)

/-- Configuration and environment inputs read by `prepareQsub`:
`manualMemArgs` from the config, the two environment overrides, the merged
job environment (values already resolved against `os.environ`), and the
two std stream paths from `format_std_out_err_path`. -/
structure QsubEnv where
  manualMemArgs : Bool
  sgeArgs : Option String
  pe : Option String
  environment : List (String × String)
  stdoutfile : String
  stderrfile : String

/-- Python truthiness of `os.getenv` results: set and nonempty. -/
def pyTruthy (s : Option String) : Bool :=
  match s with
  | none => false
  | some s => !s.toList.isEmpty

/-- The fixed head of the qsub command line built by `prepareQsub`. -/
def qsubBase (jobID : Nat) : List String :=
  ["qsub", "-V", "-b", "y", "-terse", "-j", "y", "-cwd", "-N", "toil_job_" ++ toString jobID]

/-- The `-v` environment block of `prepareQsub` (present iff the merged
environment is nonempty). -/
def envArgs (environment : List (String × String)) : List String :=
  if environment.isEmpty then []
  else ["-v", joinWith "," (environment.map (fun kv => kv.1 ++ "=" ++ shlexQuote kv.2))]

/-- The `reqline` memory block of `prepareQsub`: `vf=`/`h_vmem=` unless
`manualMemArgs` is set, in which case unset-or-empty
`TOIL_GRIDENGINE_ARGS` is a configuration error. -/
def memReqline (manualMemArgs : Bool) (sgeArgs : Option String) (mem : Option Nat) :
    Except String (List String) :=
  match mem with
  | none => .ok []
  | some m =>
    let memStr := toString (m / 1024) ++ "K"
    if !manualMemArgs then .ok ["vf=" ++ memStr, "h_vmem=" ++ memStr]
    else if !(pyTruthy sgeArgs) then
      .error "--manualMemArgs set to True, but TOIL_GRIDGENGINE_ARGS is not set."
    else .ok []

/-- The `TOIL_GRIDENGINE_ARGS` block of `prepareQsub`: tokens are rejected
when they collide with the memory or parallel-environment arguments the
adapter manages itself. -/
def sgeExtraArgs (sgeArgs : Option String) : Except String (List String) :=
  if pyTruthy sgeArgs then
    match ((pySplitWs (sgeArgs.getD "").toList).map (fun t => String.mk t)).find? (fun a =>
        pyStartsWith a "vf=" || pyStartsWith a "h_vmem=" || pyStartsWith a "-pe") with
    | some a => .error ("Unexpected CPU, memory or pe specifications in TOIL_GRIDGENGINE_ARGs: " ++ a)
    | none => .ok ((pySplitWs (sgeArgs.getD "").toList).map (fun t => String.mk t))
  else .ok []

/-- The parallel-environment block of `prepareQsub`: `cpu > 1` with
`TOIL_GRIDENGINE_PE` set (even to the empty string) appends
`-pe <pe> <ceil(cpu)>`; `cpu > 1` without it is a configuration error;
otherwise nothing is appended. -/
def peArgs (pe : Option String) (cpu : Option ℚ) : Except String (List String) :=
  match pe, cpu with
  | some p, some c =>
    if c > 1 then .ok ["-pe", p, toString c.ceil] else .ok []
  | none, some c =>
    if c > 1 then
      .error "must specify PE in TOIL_GRIDENGINE_PE environment variable when using multiple CPUs."
    else .ok []
  | _, none => .ok []

/-- Embedding of `GridEngineThread.prepareQsub`: the fixed head, the
environment block, the memory block, the extra arguments, the
parallel-environment block, then the output-file arguments. -/
def prepareQsub (env : QsubEnv) (cpu : Option ℚ) (mem : Option Nat) (jobID : Nat) :
    Except String (List String) := do
  let qsubline := qsubBase jobID ++ envArgs env.environment
  let reqline ← memReqline env.manualMemArgs env.sgeArgs mem
  let qsubline := qsubline ++
    (if reqline.length > 0 then ["-hard", "-l", joinWith "," reqline] else [])
  let extra ← sgeExtraArgs env.sgeArgs
  let qsubline := qsubline ++ extra
  let peA ← peArgs env.pe cpu
  .ok (qsubline ++ peA ++ ["-o", env.stdoutfile, "-e", env.stderrfile])

/-- Exceptions escaping `_setSSH`. -/
inductive AuthError where
  | indexError : AuthError
  | assertionError (key : String) : AuthError
deriving DecidableEq, Repr

/-- Embedding of the validation tail of `AbstractProvisioner._setSSH`,
applied to the key material read from `/root/.ssh/id_rsa.pub`:
`leaderPublicKey.split(' ')[1]` (an `IndexError` when there is no second
field), then `assert leaderPublicKey.startswith('AAAAB3NzaC1yc2E')`, and
the bare key (without `ssh-rsa`) is returned. -/
def setSSH (leaderPublicKeyFile : String) : Except AuthError String :=
  match (splitOnChar (Char.ofNat 32) leaderPublicKeyFile.toList).get? 1 with
  | none => .error .indexError
  | some bare =>
    let leaderPublicKey := String.mk bare
    if pyStartsWith leaderPublicKey "AAAAB3NzaC1yc2E" then .ok leaderPublicKey
    else .error (.assertionError leaderPublicKey)

/-- Embedding of `_setLeaderWorkerAuthentication` on a mesos cluster: the
result of `_setSSH` becomes the stored `_leaderWorkerAuthentication`. -/
def setLeaderWorkerAuthentication (leaderPublicKeyFile : String) :
    Except AuthError (Option String) :=
  (setSSH leaderPublicKeyFile).map some

/-- The `_leaderWorkerAuthentication` attribute after an establish attempt
starting from `auth`: an exception aborts before the assignment, leaving
the prior value in place. -/
def authStateAfterEstablish (auth : Option String) (leaderPublicKeyFile : String) :
    Option String :=
  match setLeaderWorkerAuthentication leaderPublicKeyFile with
  | .ok st => st
  | .error _ => auth

/-! Theorems: helper lemmas, then one theorem per claim (with witnesses). -/

theorem shape_eq_iff (a b : Shape) :
    a.shape_eq b = true ↔
      (a.wallTime = b.wallTime ∧ a.memory = b.memory ∧ a.cores = b.cores ∧
       a.disk = b.disk ∧ a.preemptible = b.preemptible) := by
  simp [Shape.shape_eq, and_assoc]

set_option maxHeartbeats 4000000 in
theorem greater_than_iff (a b : Shape) :
    a.greater_than b = true ↔
      ((a.preemptible = false ∧ b.preemptible = true) ∨
       (a.preemptible = b.preemptible ∧
        (b.memory < a.memory ∨
         (a.memory = b.memory ∧
          (b.cores < a.cores ∨
           (a.cores = b.cores ∧
            (b.disk < a.disk ∨
             (a.disk = b.disk ∧ b.wallTime < a.wallTime)))))))) := by
  unfold Shape.greater_than
  split_ifs with h1 h2 h3 h4 h5 h6 h7 h8 h9 h10
  · simp only [true_iff]
    exact Or.inl (Bool.lt_iff.mp h1)
  · simp only [Bool.false_eq_true, false_iff]
    rintro (⟨ha, hb⟩ | ⟨he, _⟩)
    · exact h1 (Bool.lt_iff.mpr ⟨ha, hb⟩)
    · exact absurd h2 (by simp [he, lt_irrefl])
  all_goals
    have hpe : a.preemptible = b.preemptible := le_antisymm (not_lt.mp h2) (not_lt.mp h1)
  · simp only [true_iff]
    refine Or.inr ⟨hpe, Or.inl h3⟩
  · simp only [Bool.false_eq_true, false_iff]
    rintro (⟨ha, hb⟩ | ⟨_, hm | ⟨he, _⟩⟩)
    · exact h1 (Bool.lt_iff.mpr ⟨ha, hb⟩)
    · exact absurd hm (not_lt.mpr (le_of_lt h4))
    · exact absurd h4 (by simp [he, lt_irrefl])
  all_goals
    have hme : a.memory = b.memory := le_antisymm (not_lt.mp h3) (not_lt.mp h4)
  · simp only [true_iff]
    exact Or.inr ⟨hpe, Or.inr ⟨hme, Or.inl h5⟩⟩
  · simp only [Bool.false_eq_true, false_iff]
    rintro (⟨ha, hb⟩ | ⟨_, hm | ⟨_, hc | ⟨he, _⟩⟩⟩)
    · exact h1 (Bool.lt_iff.mpr ⟨ha, hb⟩)
    · exact absurd hm (not_lt.mpr (le_of_eq hme))
    · exact absurd hc (not_lt.mpr (le_of_lt h6))
    · exact absurd h6 (by simp [he, lt_irrefl])
  all_goals
    have hce : a.cores = b.cores := le_antisymm (not_lt.mp h5) (not_lt.mp h6)
  · simp only [true_iff]
    exact Or.inr ⟨hpe, Or.inr ⟨hme, Or.inr ⟨hce, Or.inl h7⟩⟩⟩
  · simp only [Bool.false_eq_true, false_iff]
    rintro (⟨ha, hb⟩ | ⟨_, hm | ⟨_, hc | ⟨_, hd | ⟨he, _⟩⟩⟩⟩)
    · exact h1 (Bool.lt_iff.mpr ⟨ha, hb⟩)
    · exact absurd hm (not_lt.mpr (le_of_eq hme))
    · exact absurd hc (not_lt.mpr (le_of_eq hce))
    · exact absurd hd (not_lt.mpr (le_of_lt h8))
    · exact absurd h8 (by simp [he, lt_irrefl])
  all_goals
    have hde : a.disk = b.disk := le_antisymm (not_lt.mp h7) (not_lt.mp h8)
  · simp only [true_iff]
    exact Or.inr ⟨hpe, Or.inr ⟨hme, Or.inr ⟨hce, Or.inr ⟨hde, h9⟩⟩⟩⟩
  · simp only [Bool.false_eq_true, false_iff]
    rintro (⟨ha, hb⟩ | ⟨_, hm | ⟨_, hc | ⟨_, hd | ⟨_, hw⟩⟩⟩⟩)
    · exact h1 (Bool.lt_iff.mpr ⟨ha, hb⟩)
    · exact absurd hm (not_lt.mpr (le_of_eq hme))
    · exact absurd hc (not_lt.mpr (le_of_eq hce))
    · exact absurd hd (not_lt.mpr (le_of_eq hde))
    · exact absurd hw (not_lt.mpr (le_of_lt h10))
  · simp only [Bool.false_eq_true, false_iff]
    rintro (⟨ha, hb⟩ | ⟨_, hm | ⟨_, hc | ⟨_, hd | ⟨_, hw⟩⟩⟩⟩)
    · exact h1 (Bool.lt_iff.mpr ⟨ha, hb⟩)
    · exact absurd hm (not_lt.mpr (le_of_eq hme))
    · exact absurd hc (not_lt.mpr (le_of_eq hce))
    · exact absurd hd (not_lt.mpr (le_of_eq hde))
    · exact absurd hw h9

theorem sortKey_lt_iff (a b : Shape) :
    b.sortKey < a.sortKey ↔
      ((a.preemptible = false ∧ b.preemptible = true) ∨
       (a.preemptible = b.preemptible ∧
        (b.memory < a.memory ∨
         (a.memory = b.memory ∧
          (b.cores < a.cores ∨
           (a.cores = b.cores ∧
            (b.disk < a.disk ∨
             (a.disk = b.disk ∧ b.wallTime < a.wallTime)))))))) := by
  unfold Shape.sortKey
  rw [Prod.Lex.lt_iff]
  simp only [Prod.Lex.lt_iff]
  cases a.preemptible <;> cases b.preemptible <;>
    simp [Bool.lt_iff, eq_comm, and_assoc]

theorem greater_than_iff_sortKey (a b : Shape) :
    a.greater_than b = true ↔ b.sortKey < a.sortKey := by
  rw [greater_than_iff, sortKey_lt_iff]

theorem shape_eq_iff_sortKey (a b : Shape) :
    a.shape_eq b = true ↔ a.sortKey = b.sortKey := by
  rw [shape_eq_iff]
  unfold Shape.sortKey
  simp only [toLex_inj, Prod.mk.injEq]
  cases a.preemptible <;> cases b.preemptible <;> simp <;> tauto

/-- C1: for every pair of `Shape` values `a` and `b`, `a.greater_than b`
returns `true` exactly when the tie-break policy says so: a non-preemptible
`a` is greater than a preemptible `b` regardless of the other fields; when
preemptibility is equal the result is decided by the first differing field
in the order memory, cores, disk, wallTime, with the larger value greater;
when all five fields are equal the result is `false`. -/
theorem claim_C1 (a b : Shape) :
    (a.greater_than b = true ↔
      ((a.preemptible = false ∧ b.preemptible = true) ∨
       (a.preemptible = b.preemptible ∧
        (b.memory < a.memory ∨
         (a.memory = b.memory ∧
          (b.cores < a.cores ∨
           (a.cores = b.cores ∧
            (b.disk < a.disk ∨
             (a.disk = b.disk ∧ b.wallTime < a.wallTime))))))))) ∧
    (a.shape_eq b = true → a.greater_than b = false) := by
  refine ⟨greater_than_iff a b, fun he => ?_⟩
  have hk := (shape_eq_iff_sortKey a b).mp he
  rw [Bool.eq_false_iff]
  intro hgt
  exact absurd ((greater_than_iff_sortKey a b).mp hgt) (by rw [hk]; exact lt_irrefl _)

/-- C1 witness: a non-preemptible shape with fewer cores is still greater
than a preemptible one, and a shape is not greater than itself. -/
theorem claim_C1_witness :
    (Shape.mk 3600 1000 4 500 false).greater_than (Shape.mk 3600 1000 8 500 true) = true ∧
    (Shape.mk 3600 1000 4 500 false).greater_than (Shape.mk 3600 1000 4 500 false) = false := by
  constructor
  · exact (claim_C1 (Shape.mk 3600 1000 4 500 false) (Shape.mk 3600 1000 8 500 true)).1.mpr
      (Or.inl ⟨rfl, rfl⟩)
  · exact (claim_C1 (Shape.mk 3600 1000 4 500 false) (Shape.mk 3600 1000 4 500 false)).2
      (by decide)

/-- C2: `Shape` equality holds iff all five fields match exactly; it is
reflexive, symmetric and transitive, and two shapes differing only in
`wallTime` are unequal. -/
theorem claim_C2 (a b c : Shape) :
    (a.shape_eq b = true ↔
      (a.wallTime = b.wallTime ∧ a.memory = b.memory ∧ a.cores = b.cores ∧
       a.disk = b.disk ∧ a.preemptible = b.preemptible)) ∧
    (a.shape_eq a = true) ∧
    (a.shape_eq b = b.shape_eq a) ∧
    (a.shape_eq b = true → b.shape_eq c = true → a.shape_eq c = true) ∧
    (a.wallTime ≠ b.wallTime → a.memory = b.memory → a.cores = b.cores →
      a.disk = b.disk → a.preemptible = b.preemptible → a.shape_eq b = false) := by
  refine ⟨shape_eq_iff a b, ?_, ?_, ?_, ?_⟩
  · exact (shape_eq_iff a a).mpr ⟨rfl, rfl, rfl, rfl, rfl⟩
  · by_cases h : a.shape_eq b = true
    · obtain ⟨h1, h2, h3, h4, h5⟩ := (shape_eq_iff a b).mp h
      rw [h, ((shape_eq_iff b a).mpr ⟨h1.symm, h2.symm, h3.symm, h4.symm, h5.symm⟩)]
    · rw [Bool.not_eq_true] at h
      rw [h]
      symm
      rw [Bool.eq_false_iff]
      intro hba
      obtain ⟨h1, h2, h3, h4, h5⟩ := (shape_eq_iff b a).mp hba
      have := (shape_eq_iff a b).mpr ⟨h1.symm, h2.symm, h3.symm, h4.symm, h5.symm⟩
      rw [h] at this
      exact Bool.false_ne_true this
  · intro hab hbc
    obtain ⟨h1, h2, h3, h4, h5⟩ := (shape_eq_iff a b).mp hab
    obtain ⟨g1, g2, g3, g4, g5⟩ := (shape_eq_iff b c).mp hbc
    exact (shape_eq_iff a c).mpr
      ⟨h1.trans g1, h2.trans g2, h3.trans g3, h4.trans g4, h5.trans g5⟩
  · intro hw _ _ _ _
    rw [Bool.eq_false_iff]
    intro h
    exact hw ((shape_eq_iff a b).mp h).1

/-- C2 witness: two shapes differing only in wallTime are unequal, and
equality is reflexive and transitive at concrete shapes. -/
theorem claim_C2_witness :
    (Shape.mk 3600 1000 4 500 false).shape_eq (Shape.mk 1800 1000 4 500 false) = false ∧
    (Shape.mk 3600 1000 4 500 false).shape_eq (Shape.mk 3600 1000 4 500 false) = true := by
  constructor
  · exact (claim_C2 (Shape.mk 3600 1000 4 500 false) (Shape.mk 1800 1000 4 500 false)
      (Shape.mk 3600 1000 4 500 false)).2.2.2.2 (by norm_num) rfl rfl rfl rfl
  · exact ((claim_C2 (Shape.mk 3600 1000 4 500 false) (Shape.mk 3600 1000 4 500 false)
      (Shape.mk 3600 1000 4 500 false)).2.2.2.1 (by decide) (by decide))

/-- C10: `greater_than` is a strict total order consistent with field-wise
equality: exactly one of `a.greater_than b`, `b.greater_than a`, `a == b`
holds, and the relation is irreflexive, asymmetric and transitive. -/
theorem claim_C10 (a b c : Shape) :
    ((a.greater_than b = true ∧ b.greater_than a = false ∧ a.shape_eq b = false) ∨
     (a.greater_than b = false ∧ b.greater_than a = true ∧ a.shape_eq b = false) ∨
     (a.greater_than b = false ∧ b.greater_than a = false ∧ a.shape_eq b = true)) ∧
    (a.greater_than a = false) ∧
    (a.greater_than b = true → b.greater_than a = false) ∧
    (a.greater_than b = true → b.greater_than c = true → a.greater_than c = true) := by
  have key : ∀ x y : Shape, x.greater_than y = false ↔ ¬ y.sortKey < x.sortKey := by
    intro x y
    rw [← Bool.not_eq_true, not_iff_not]
    exact greater_than_iff_sortKey x y
  refine ⟨?_, ?_, ?_, ?_⟩
  · rcases lt_trichotomy b.sortKey a.sortKey with h | h | h
    · refine Or.inl ⟨(greater_than_iff_sortKey a b).mpr h, (key b a).mpr (lt_asymm h), ?_⟩
      rw [Bool.eq_false_iff]
      intro he
      exact absurd h (by rw [(shape_eq_iff_sortKey a b).mp he]; exact lt_irrefl _)
    · refine Or.inr (Or.inr ⟨(key a b).mpr (by rw [h]; exact lt_irrefl _),
        (key b a).mpr (by rw [h]; exact lt_irrefl _),
        (shape_eq_iff_sortKey a b).mpr h.symm⟩)
    · refine Or.inr (Or.inl ⟨(key a b).mpr (not_lt.mpr (le_of_lt h)),
        (greater_than_iff_sortKey b a).mpr h, ?_⟩)
      rw [Bool.eq_false_iff]
      intro he
      exact absurd h (by rw [(shape_eq_iff_sortKey a b).mp he]; exact lt_irrefl _)
  · exact (key a a).mpr (lt_irrefl _)
  · intro h
    exact (key b a).mpr (lt_asymm ((greater_than_iff_sortKey a b).mp h))
  · intro hab hbc
    exact (greater_than_iff_sortKey a c).mpr
      (lt_trans ((greater_than_iff_sortKey b c).mp hbc) ((greater_than_iff_sortKey a b).mp hab))

/-- C10 witness: transitivity and asymmetry at three concrete shapes. -/
theorem claim_C10_witness :
    (Shape.mk 1 3 1 1 false).greater_than (Shape.mk 1 1 1 1 false) = true ∧
    (Shape.mk 1 1 1 1 false).greater_than (Shape.mk 1 3 1 1 false) = false := by
  have h := claim_C10 (Shape.mk 1 3 1 1 false) (Shape.mk 1 2 1 1 false) (Shape.mk 1 1 1 1 false)
  refine ⟨h.2.2.2 (by decide) (by decide), ?_⟩
  exact (claim_C10 (Shape.mk 1 3 1 1 false) (Shape.mk 1 1 1 1 false)
    (Shape.mk 1 1 1 1 false)).2.2.1 (by decide)

theorem dictLookup_dictInsert {k v : Type} [DecidableEq k]
    (m : List (k × v)) (key s : k) (val : v) :
    dictLookup (dictInsert m key val) s =
      if s = key then some val else dictLookup m s := by
  induction m with
  | nil =>
    simp only [dictInsert, dictLookup]
    by_cases hs : s = key
    · rw [if_pos hs.symm, if_pos hs]
    · rw [if_neg (fun h => hs h.symm), if_neg hs]
  | cons hd tl ih =>
    obtain ⟨k0, v0⟩ := hd
    by_cases h0 : k0 = key
    · subst h0
      by_cases hs : k0 = s
      · subst hs
        simp [dictInsert, dictLookup]
      · have hs2 : ¬ s = k0 := fun h => hs h.symm
        simp [dictInsert, dictLookup, hs, hs2]
    · by_cases hs : k0 = s
      · subst hs
        simp [dictInsert, dictLookup, h0]
      · simp [dictInsert, dictLookup, h0, hs, ih]

theorem recordInstanceType_spot (getNodeShape : String → Bool → Shape)
    (pre : Bool) (names : List String) (a : ProvState) :
    (names.foldl (recordInstanceType getNodeShape pre) a).spotBidsMap = a.spotBidsMap := by
  induction names generalizing a with
  | nil => rfl
  | cons n ns ih => exact ih _

theorem recordInstanceType_shape (getNodeShape : String → Bool → Shape)
    (pre : Bool) (names : List String) (a : ProvState) :
    (names.foldl (recordInstanceType getNodeShape pre) a).shape_to_instance_type =
      (names.map (fun n => (n, pre))).foldl (shapeTableIns getNodeShape)
        a.shape_to_instance_type := by
  induction names generalizing a with
  | nil => rfl
  | cons n ns ih =>
    rw [List.map_cons, List.foldl_cons, List.foldl_cons, ih]
    rfl

theorem autoscaleStep_shape (getNodeShape : String → Bool → Shape)
    (acc : ProvState) (nt : NodeTypeSpec) :
    (autoscaleStep getNodeShape acc nt).shape_to_instance_type =
      (nt.1.map (fun n => (n, nt.2.isSome))).foldl (shapeTableIns getNodeShape)
        acc.shape_to_instance_type := by
  unfold autoscaleStep
  rw [recordInstanceType_shape]
  cases nt.2 <;> rfl

theorem setAutoscaledNodeTypes_shape_table (getNodeShape : String → Bool → Shape)
    (st : ProvState) (nodeTypes : List NodeTypeSpec) :
    (setAutoscaledNodeTypes getNodeShape st nodeTypes).shape_to_instance_type =
      (flattenSpecs nodeTypes).foldl (shapeTableIns getNodeShape) [] := by
  unfold setAutoscaledNodeTypes
  have key : ∀ (nts : List NodeTypeSpec) (init : ProvState),
      (nts.foldl (autoscaleStep getNodeShape) init).shape_to_instance_type =
        (flattenSpecs nts).foldl (shapeTableIns getNodeShape) init.shape_to_instance_type := by
    intro nts
    induction nts with
    | nil => intro init; rfl
    | cons nt rest ih =>
      intro init
      have hflat : flattenSpecs (nt :: rest) =
          nt.1.map (fun n => (n, nt.2.isSome)) ++ flattenSpecs rest := by
        simp [flattenSpecs]
      rw [List.foldl_cons, ih, hflat, List.foldl_append, autoscaleStep_shape]
  exact key nodeTypes _

theorem mem_keys_dictInsert {k v : Type} [DecidableEq k]
    (m : List (k × v)) (key s : k) (val : v)
    (h : s ∈ (dictInsert m key val).map Prod.fst) :
    s = key ∨ s ∈ m.map Prod.fst := by
  induction m with
  | nil => simpa [dictInsert] using h
  | cons hd tl ih =>
    obtain ⟨k0, v0⟩ := hd
    by_cases h0 : k0 = key
    · simp only [dictInsert, if_pos h0, List.map_cons, List.mem_cons] at h ⊢
      tauto
    · simp only [dictInsert, if_neg h0, List.map_cons, List.mem_cons] at h ⊢
      rcases h with h | h
      · tauto
      · rcases ih h with h | h <;> tauto

theorem setAutoscaledNodeTypes_spot_keys (getNodeShape : String → Bool → Shape)
    (st : ProvState) (nodeTypes : List NodeTypeSpec) (k : Finset String)
    (hk : k ∈ (setAutoscaledNodeTypes getNodeShape st nodeTypes).spotBidsMap.map Prod.fst) :
    ∃ nt ∈ nodeTypes, nt.2.isSome ∧ nt.1.toFinset = k := by
  unfold setAutoscaledNodeTypes at hk
  suffices h : ∀ (nts : List NodeTypeSpec) (init : ProvState),
      k ∈ (nts.foldl (autoscaleStep getNodeShape) init).spotBidsMap.map Prod.fst →
      k ∈ init.spotBidsMap.map Prod.fst ∨ ∃ nt ∈ nts, nt.2.isSome ∧ nt.1.toFinset = k by
    rcases h nodeTypes _ hk with h | h
    · simp at h
    · exact h
  intro nts
  induction nts with
  | nil => intro init h; exact Or.inl h
  | cons nt rest ih =>
    intro init h
    rw [List.foldl_cons] at h
    rcases ih _ h with h | h
    · unfold autoscaleStep at h
      rw [recordInstanceType_spot] at h
      rcases hnt : nt.2 with _ | bid
      · rw [hnt] at h
        exact Or.inl h
      · rw [hnt] at h
        simp only at h
        rcases mem_keys_dictInsert _ _ _ _ h with h | h
        · exact Or.inr ⟨nt, List.mem_cons_self nt rest, by rw [hnt]; exact ⟨rfl, h.symm⟩⟩
        · exact Or.inl h
    · obtain ⟨nt0, hmem, hrest⟩ := h
      exact Or.inr ⟨nt0, List.mem_cons_of_mem _ hmem, hrest⟩

/-- C3: two successive `setAutoscaledNodeTypes` calls leave exactly the
state computed from the second spec list alone, and the spot-bids map has
entries (keyed by the class's instance-type set) only for classes whose bid
is present. -/
theorem claim_C3 (getNodeShape : String → Bool → Shape) (st : ProvState)
    (specs1 specs2 : List NodeTypeSpec) :
    (setAutoscaledNodeTypes getNodeShape
        (setAutoscaledNodeTypes getNodeShape st specs1) specs2 =
      setAutoscaledNodeTypes getNodeShape st specs2) ∧
    (∀ k, k ∈ (setAutoscaledNodeTypes getNodeShape st specs2).spotBidsMap.map Prod.fst →
      ∃ nt ∈ specs2, nt.2.isSome ∧ nt.1.toFinset = k) :=
  ⟨rfl, fun k hk => setAutoscaledNodeTypes_spot_keys getNodeShape st specs2 k hk⟩

/-- C3 witness: at a concrete shape function and concrete spec lists, the
second call fully replaces the first call's state and the one spot-bid key
comes from the preemptible class. -/
theorem claim_C3_witness :
    (setAutoscaledNodeTypes (fun n p => Shape.mk 1 (n.length : Int) 1 1 p)
        (setAutoscaledNodeTypes (fun n p => Shape.mk 1 (n.length : Int) 1 1 p)
          (ProvState.mk [] []) [(["t1"], none)]) [(["t2"], some 2)] =
      setAutoscaledNodeTypes (fun n p => Shape.mk 1 (n.length : Int) 1 1 p)
        (ProvState.mk [] []) [(["t2"], some 2)]) ∧
    (∃ nt ∈ [((["t2"], some 2) : NodeTypeSpec)], nt.2.isSome ∧ nt.1.toFinset = {"t2"}) := by
  have h := claim_C3 (fun n p => Shape.mk 1 (n.length : Int) 1 1 p)
    (ProvState.mk [] []) [(["t1"], none)] [(["t2"], some 2)]
  refine ⟨h.1, h.2 {"t2"} ?_⟩
  decide

/-- C4: within one `setAutoscaledNodeTypes` call the shape table maps each
shape to the instance type processed last among those realizing it
(last-write-wins): the lookup result is the last matching entry of the
processing order, so earlier colliding entries are silently dropped. -/
theorem claim_C4 (getNodeShape : String → Bool → Shape) (st : ProvState)
    (specs : List NodeTypeSpec) (s : Shape) :
    dictLookup (setAutoscaledNodeTypes getNodeShape st specs).shape_to_instance_type s =
      Option.map Prod.fst
        ((flattenSpecs specs).reverse.find? (fun p => decide (getNodeShape p.1 p.2 = s))) := by
  rw [setAutoscaledNodeTypes_shape_table]
  have key : ∀ (l : List (String × Bool)) (m : List (Shape × String)),
      dictLookup (l.foldl (shapeTableIns getNodeShape) m) s =
        ((l.reverse.find? (fun p => decide (getNodeShape p.1 p.2 = s))).map Prod.fst).or
          (dictLookup m s) := by
    intro l
    induction l with
    | nil => intro m; simp
    | cons p rest ih =>
      intro m
      rw [List.foldl_cons, ih, List.reverse_cons, List.find?_append]
      cases hfind : rest.reverse.find? (fun p => decide (getNodeShape p.1 p.2 = s)) with
      | some q => simp [Option.or]
      | none =>
        simp only [Option.or, Option.map]
        unfold shapeTableIns
        rw [dictLookup_dictInsert]
        by_cases hs : getNodeShape p.1 p.2 = s
        · simp [List.find?, hs]
        · have hs2 : ¬ s = getNodeShape p.1 p.2 := fun h => hs h.symm
          simp [List.find?, hs, hs2]
  rw [key]
  cases (flattenSpecs specs).reverse.find? (fun p => decide (getNodeShape p.1 p.2 = s)) <;>
    simp [dictLookup, Option.or]

/-- C7: rendering the configuration document is deterministic; adding a
file with identical arguments twice produces two file entries (no
deduplication) and touches nothing else; and the document carries the
default `core` login user with exactly the accumulated authorized keys iff
at least one key was added. -/
theorem claim_C7 (c c1 c2 : InstanceConfiguration) (p fs : String) (m : ModeArg)
    (ct : String) (ap : Bool) :
    (c.toIgnitionConfig = c.toIgnitionConfig) ∧
    (c.addFile p fs m ct ap = some c1 → c1.addFile p fs m ct ap = some c2 →
      ∃ mv, normMode m = some mv ∧
        c2.files = c.files ++
          [{ path := p, filesystem := fs, mode := mv,
             source := "data:," ++ urlquote ct, append := ap },
           { path := p, filesystem := fs, mode := mv,
             source := "data:," ++ urlquote ct, append := ap }] ∧
        c2.units = c.units ∧ c2.sshPublicKeys = c.sshPublicKeys) ∧
    ((∃ v, ("passwd", v) ∈ ignitionDict c) ↔ c.sshPublicKeys ≠ []) ∧
    (∀ v, ("passwd", v) ∈ ignitionDict c →
      v = "\x7b\"users\":" ++ renderUsers c.sshPublicKeys ++ "\x7d") := by
  refine ⟨rfl, ?_, ?_, ?_⟩
  · intro h1 h2
    unfold InstanceConfiguration.addFile at h1 h2
    cases hm : normMode m with
    | none => rw [hm] at h1; exact absurd h1 (by simp)
    | some mv =>
      rw [hm] at h1 h2
      simp only [Option.some.injEq] at h1 h2
      refine ⟨mv, rfl, ?_, ?_, ?_⟩
      · rw [← h2, ← h1]
        simp
      · rw [← h2, ← h1]
      · rw [← h2, ← h1]
  · by_cases hk : c.sshPublicKeys = []
    · simp only [ignitionDict, hk, List.length_nil, gt_iff_lt, lt_irrefl, if_false,
        List.append_nil, ne_eq, not_true_eq_false, iff_false]
      rintro ⟨v, hv⟩
      simp [List.mem_cons, Prod.mk.injEq] at hv
    · have hlen : c.sshPublicKeys.length > 0 := List.length_pos.mpr hk
      simp only [ignitionDict, hlen, if_true, ne_eq, hk, not_false_eq_true, iff_true]
      exact ⟨"\x7b\"users\":" ++ renderUsers c.sshPublicKeys ++ "\x7d", by simp⟩
  · intro v hv
    by_cases hk : c.sshPublicKeys = []
    · simp [ignitionDict, hk] at hv
    · have hlen : c.sshPublicKeys.length > 0 := List.length_pos.mpr hk
      simp [ignitionDict, hlen] at hv
      exact hv

/-- C7 witness: adding the same file twice to a fresh builder yields two
identical entries, and a builder with one key renders a passwd section. -/
theorem claim_C7_witness :
    (∃ mv, normMode (Sum.inl "0755") = some mv ∧
      (InstanceConfiguration.mk
        [{ path := "/a", filesystem := "root", mode := 493, source := "data:,", append := false },
         { path := "/a", filesystem := "root", mode := 493, source := "data:,", append := false }]
        [] []).files =
        InstanceConfiguration.new.files ++
          [{ path := "/a", filesystem := "root", mode := mv,
             source := "data:," ++ urlquote "", append := false },
           { path := "/a", filesystem := "root", mode := mv,
             source := "data:," ++ urlquote "", append := false }] ∧
      (InstanceConfiguration.mk
        [{ path := "/a", filesystem := "root", mode := 493, source := "data:,", append := false },
         { path := "/a", filesystem := "root", mode := 493, source := "data:,", append := false }]
        [] []).units = InstanceConfiguration.new.units ∧
      (InstanceConfiguration.mk
        [{ path := "/a", filesystem := "root", mode := 493, source := "data:,", append := false },
         { path := "/a", filesystem := "root", mode := 493, source := "data:,", append := false }]
        [] []).sshPublicKeys = InstanceConfiguration.new.sshPublicKeys) ∧
    (∃ v, ("passwd", v) ∈ ignitionDict (InstanceConfiguration.new.addSSHRSAKey "AAAA")) := by
  constructor
  · exact (claim_C7 InstanceConfiguration.new
      (InstanceConfiguration.mk
        [{ path := "/a", filesystem := "root", mode := 493, source := "data:,", append := false }]
        [] [])
      (InstanceConfiguration.mk
        [{ path := "/a", filesystem := "root", mode := 493, source := "data:,", append := false },
         { path := "/a", filesystem := "root", mode := 493, source := "data:,", append := false }]
        [] [])
      "/a" "root" (Sum.inl "0755") "" false).2.1 (by decide) (by decide)
  · exact (claim_C7 (InstanceConfiguration.new.addSSHRSAKey "AAAA")
      InstanceConfiguration.new InstanceConfiguration.new
      "/a" "root" (Sum.inl "0755") "" false).2.2.1.mpr (by simp [InstanceConfiguration.addSSHRSAKey, InstanceConfiguration.new])

/-- C8: when the rendered document exceeds the user-data limit, the full
document is uploaded at a key containing the role and a minimal redirect
document pointing at the upload URL is returned; otherwise the rendered
document is returned unchanged and nothing is uploaded. -/
theorem claim_C8 (user_data : String) (limit : Nat) (role uuid : String)
    (write_file_to_cloud : String → String → String) :
    (user_data.length > limit →
      getIgnitionUserDataTail user_data limit role uuid write_file_to_cloud =
        (ignitionRedirect (write_file_to_cloud
            ("configs/" ++ role ++ "/config-" ++ uuid ++ ".ign") user_data),
         [("configs/" ++ role ++ "/config-" ++ uuid ++ ".ign", user_data)]) ∧
      ∃ pre post, "configs/" ++ role ++ "/config-" ++ uuid ++ ".ign" = pre ++ role ++ post) ∧
    (¬ user_data.length > limit →
      getIgnitionUserDataTail user_data limit role uuid write_file_to_cloud =
        (user_data, [])) := by
  constructor
  · intro h
    refine ⟨by simp [getIgnitionUserDataTail, h], "configs/", "/config-" ++ uuid ++ ".ign", ?_⟩
    simp [String.append_assoc]
  · intro h
    simp [getIgnitionUserDataTail, h]

/-- C8 witness: a six-byte document over a five-byte limit is redirected
and uploaded under the worker role; under a big limit it passes through. -/
theorem claim_C8_witness :
    (getIgnitionUserDataTail "abcdef" 5 "worker" "u0" (fun k _ => "https://s/" ++ k) =
      (ignitionRedirect ("https://s/" ++ ("configs/" ++ "worker" ++ "/config-" ++ "u0" ++ ".ign")),
       [("configs/" ++ "worker" ++ "/config-" ++ "u0" ++ ".ign", "abcdef")]) ∧
     ∃ pre post, "configs/" ++ "worker" ++ "/config-" ++ "u0" ++ ".ign" =
        pre ++ "worker" ++ post) ∧
    (getIgnitionUserDataTail "abcdef" 6 "worker" "u0" (fun k _ => "https://s/" ++ k) =
      ("abcdef", [])) := by
  constructor
  · exact (claim_C8 "abcdef" 5 "worker" "u0" (fun k _ => "https://s/" ++ k)).1 (by decide)
  · exact (claim_C8 "abcdef" 6 "worker" "u0" (fun k _ => "https://s/" ++ k)).2 (by decide)

theorem scanQacct_cons (line : List Char) (rest : List (List Char)) :
    scanQacct (line :: rest) =
      (if "failed".toList.isPrefixOf line = true then
        match pySplitWs line with
        | _ :: tok :: _ =>
          (match pyInt tok with
           | some v => if v = 1 then Except.ok (some 1) else scanQacct rest
           | none => Except.error GEError.valueError)
        | _ => Except.error GEError.indexError
      else if "exit_status".toList.isPrefixOf line = true then
        match pySplitWs line with
        | _ :: tok :: _ =>
          (match pyInt tok with
           | some v => Except.ok (some v)
           | none => Except.error GEError.valueError)
        | _ => Except.error GEError.indexError
      else scanQacct rest) := rfl

theorem scanQacct_irrelevant (l0 : List Char) (rest : List (List Char))
    (h1 : "failed".toList.isPrefixOf l0 = false)
    (h2 : "exit_status".toList.isPrefixOf l0 = false) :
    scanQacct (l0 :: rest) = scanQacct rest := by
  have h1n : ¬ ("failed".toList.isPrefixOf l0 = true) := by
    rw [h1]
    exact Bool.false_ne_true
  have h2n : ¬ ("exit_status".toList.isPrefixOf l0 = true) := by
    rw [h2]
    exact Bool.false_ne_true
  rw [scanQacct_cons, if_neg h1n, if_neg h2n]

theorem scanQacct_skip_failed (l0 : List Char) (rest : List (List Char))
    (hf : "failed".toList.isPrefixOf l0 = true)
    (tok : List Char) (v : Int) (htok : (pySplitWs l0).get? 1 = some tok)
    (hv : pyInt tok = some v) (hne : v ≠ 1) :
    scanQacct (l0 :: rest) = scanQacct rest := by
  cases hsp : pySplitWs l0 with
  | nil => rw [hsp] at htok; exact absurd htok (by simp)
  | cons a t =>
    cases t with
    | nil => rw [hsp] at htok; exact absurd htok (by simp)
    | cons b r =>
      rw [hsp] at htok
      have hb : b = tok := by simpa using htok
      subst hb
      rw [scanQacct_cons, if_pos hf, hsp]
      simp [hv, hne]

theorem scanQacct_skip (pre rest : List (List Char))
    (hpre : ∀ l0 ∈ pre, skippedQacctLine l0) :
    scanQacct (pre ++ rest) = scanQacct rest := by
  induction pre with
  | nil => rfl
  | cons l0 tl ih =>
    have hstep : scanQacct (l0 :: (tl ++ rest)) = scanQacct (tl ++ rest) := by
      rcases hpre l0 (List.mem_cons_self l0 tl) with ⟨h1, h2⟩ | ⟨hf, tok, v, htok, hv, hne⟩
      · exact scanQacct_irrelevant l0 _ h1 h2
      · exact scanQacct_skip_failed l0 _ hf tok v htok hv hne
    rw [List.cons_append, hstep, ih (fun l hl => hpre l (List.mem_cons_of_mem l0 hl))]

theorem scanQacct_none (lines : List (List Char))
    (h : ∀ l ∈ lines, skippedQacctLine l) :
    scanQacct lines = Except.ok none := by
  have := scanQacct_skip lines [] h
  rw [List.append_nil] at this
  rw [this]
  rfl

theorem scanQacct_failed (l : List Char) (rest : List (List Char))
    (hf : "failed".toList.isPrefixOf l = true)
    (tok : List Char) (htok : (pySplitWs l).get? 1 = some tok)
    (hv : pyInt tok = some 1) :
    scanQacct (l :: rest) = Except.ok (some 1) := by
  cases hsp : pySplitWs l with
  | nil => rw [hsp] at htok; exact absurd htok (by simp)
  | cons a t =>
    cases t with
    | nil => rw [hsp] at htok; exact absurd htok (by simp)
    | cons b r =>
      rw [hsp] at htok
      have hb : b = tok := by simpa using htok
      subst hb
      rw [scanQacct_cons, if_pos hf, hsp]
      simp [hv]

theorem not_failed_of_exit (l : List Char)
    (he : "exit_status".toList.isPrefixOf l = true) :
    "failed".toList.isPrefixOf l = false := by
  rw [List.isPrefixOf_iff_prefix] at he
  rw [Bool.eq_false_iff]
  intro hf
  rw [List.isPrefixOf_iff_prefix] at hf
  rcases List.prefix_or_prefix_of_prefix hf he with h | h
  · exact absurd h (by decide)
  · exact absurd h (by decide)

theorem scanQacct_exit (l : List Char) (rest : List (List Char))
    (he : "exit_status".toList.isPrefixOf l = true)
    (tok : List Char) (v : Int) (htok : (pySplitWs l).get? 1 = some tok)
    (hv : pyInt tok = some v) :
    scanQacct (l :: rest) = Except.ok (some v) := by
  cases hsp : pySplitWs l with
  | nil => rw [hsp] at htok; exact absurd htok (by simp)
  | cons a t =>
    cases t with
    | nil => rw [hsp] at htok; exact absurd htok (by simp)
    | cons b r =>
      rw [hsp] at htok
      have hb : b = tok := by simpa using htok
      subst hb
      have hfn : ¬ ("failed".toList.isPrefixOf l = true) := by
        rw [not_failed_of_exit l he]
        exact Bool.false_ne_true
      rw [scanQacct_cons, if_neg hfn, if_pos he, hsp]
      simp [hv]

/-- C5: `getJobExitCode` returns still-running (`none`) from a successful
live-queue query regardless of the accounting output; on a live-queue
failure carrying the "job not found" signature it scans accounting and
returns 1 for the first `failed` line with value 1, the parsed integer for
the first `exit_status` line (lines before the matched one may also be
`failed` lines with a value other than 1, such as `failed 0`, which the
scan passes over), and `none` when no line returns; a live-queue failure
without the signature propagates unchanged. -/
theorem claim_C5 (jid stderr qacct : String)
    (hjid : jid.toList.contains (Char.ofNat 46) = false) :
    (getJobExitCode jid .ok qacct = .ok none) ∧
    (hasSubstr stderr.toList qstatNotFoundMarker.toList = false →
      getJobExitCode jid (.err stderr) qacct = .error (.calledProcessError stderr)) ∧
    (hasSubstr stderr.toList qstatNotFoundMarker.toList = true →
      (∀ l ∈ splitOnChar (Char.ofNat 10) qacct.toList, skippedQacctLine l) →
      getJobExitCode jid (.err stderr) qacct = .ok none) ∧
    (hasSubstr stderr.toList qstatNotFoundMarker.toList = true →
      ∀ pre l post, splitOnChar (Char.ofNat 10) qacct.toList = pre ++ l :: post →
      (∀ l0 ∈ pre, skippedQacctLine l0) →
      "failed".toList.isPrefixOf l = true →
      ∀ tok, (pySplitWs l).get? 1 = some tok → pyInt tok = some 1 →
      getJobExitCode jid (.err stderr) qacct = .ok (some 1)) ∧
    (hasSubstr stderr.toList qstatNotFoundMarker.toList = true →
      ∀ pre l post, splitOnChar (Char.ofNat 10) qacct.toList = pre ++ l :: post →
      (∀ l0 ∈ pre, skippedQacctLine l0) →
      "exit_status".toList.isPrefixOf l = true →
      ∀ tok v, (pySplitWs l).get? 1 = some tok → pyInt tok = some v →
      getJobExitCode jid (.err stderr) qacct = .ok (some v)) := by
  have hjd : Char.ofNat 46 ∉ jid.data := by simpa using hjid
  have hred : ∀ q s, getJobExitCode jid (.err s) q =
      (if hasSubstr s.toList qstatNotFoundMarker.toList = true then
        scanQacct (splitOnChar (Char.ofNat 10) q.toList)
      else .error (.calledProcessError s)) := by
    intro q s
    unfold getJobExitCode
    rw [if_neg (by simpa using hjd)]
  refine ⟨?_, ?_, ?_, ?_, ?_⟩
  · unfold getJobExitCode
    rw [if_neg (by simpa using hjd)]
  · intro hmark
    have hm : ¬ (hasSubstr stderr.toList qstatNotFoundMarker.toList = true) := by
      rw [hmark]
      exact Bool.false_ne_true
    rw [hred, if_neg hm]
  · intro hmark hnone
    rw [hred, if_pos hmark]
    exact scanQacct_none _ hnone
  · intro hmark pre l post hsplit hpre hf tok htok hv
    rw [hred, if_pos hmark, hsplit, scanQacct_skip pre _ hpre]
    exact scanQacct_failed l post hf tok htok hv
  · intro hmark pre l post hsplit hpre he tok v htok hv
    rw [hred, if_pos hmark, hsplit, scanQacct_skip pre _ hpre]
    exact scanQacct_exit l post he tok v htok hv

/-- C5 witness: concrete runs of all the cases on literal tool output,
including the standard accounting record where a `failed 0` line precedes
`exit_status`. -/
theorem claim_C5_witness :
    (getJobExitCode "42" .ok "exit_status 5" = .ok none) ∧
    (getJobExitCode "42" (.err "transient failure") "exit_status 5" =
      .error (.calledProcessError "transient failure")) ∧
    (getJobExitCode "42" (.err "Following jobs do not exist: 42")
      "nothing here\nfailed  0" = .ok none) ∧
    (getJobExitCode "42" (.err "Following jobs do not exist: 42")
      "==\nfailed  1 : assumedly after job\nexit_status 9" = .ok (some 1)) ∧
    (getJobExitCode "42" (.err "Following jobs do not exist: 42")
      "failed  0\nexit_status 7" = .ok (some 7)) := by
  refine ⟨?_, ?_, ?_, ?_, ?_⟩
  · exact (claim_C5 "42" "x" "exit_status 5" (by decide)).1
  · exact (claim_C5 "42" "transient failure" "exit_status 5" (by decide)).2.1 (by decide)
  · have hall : ∀ l ∈ splitOnChar (Char.ofNat 10) ("nothing here\nfailed  0" : String).toList,
        skippedQacctLine l := by
      intro l hl
      rcases List.mem_cons.mp hl with h | h
      · subst h
        exact Or.inl ⟨by decide, by decide⟩
      · have hx : l = "failed  0".toList := by simpa using h
        subst hx
        exact Or.inr ⟨by decide, "0".toList, 0, by decide, by decide, by decide⟩
    exact (claim_C5 "42" "Following jobs do not exist: 42" "nothing here\nfailed  0"
      (by decide)).2.2.1 (by decide) hall
  · have hpre : ∀ l0 ∈ [("=".toList.head! :: "=".toList)], skippedQacctLine l0 := by
      intro l0 hl0
      have hx : l0 = "=".toList.head! :: "=".toList := by simpa using hl0
      subst hx
      exact Or.inl ⟨by decide, by decide⟩
    exact (claim_C5 "42" "Following jobs do not exist: 42"
      "==\nfailed  1 : assumedly after job\nexit_status 9" (by decide)).2.2.2.1 (by decide)
      ["=".toList.head! :: "=".toList]
      "failed  1 : assumedly after job".toList
      ["exit_status 9".toList]
      (by decide) hpre (by decide) "1".toList (by decide) (by decide)
  · have hpre : ∀ l0 ∈ [("failed  0".toList)], skippedQacctLine l0 := by
      intro l0 hl0
      have hx : l0 = "failed  0".toList := by simpa using hl0
      subst hx
      exact Or.inr ⟨by decide, "0".toList, 0, by decide, by decide, by decide⟩
    exact (claim_C5 "42" "Following jobs do not exist: 42" "failed  0\nexit_status 7"
      (by decide)).2.2.2.2 (by decide) ["failed  0".toList] "exit_status 7".toList []
      (by decide) hpre (by decide) "7".toList 7 (by decide) (by decide)

/-- C6: after stripping the key-type field, key material whose bare key
does not start with the RSA prefix `AAAAB3NzaC1yc2E` fails validation and
leaves the stored authentication state untouched; a bare key with the
prefix is returned (without `ssh-rsa`) and stored. -/
theorem claim_C6 (auth : Option String) (fileContents : String) (bareL : List Char)
    (hbare : (splitOnChar (Char.ofNat 32) fileContents.toList).get? 1 = some bareL) :
    (pyStartsWith (String.mk bareL) "AAAAB3NzaC1yc2E" = false →
      (∃ e, setSSH fileContents = .error e) ∧
      (∃ e, setLeaderWorkerAuthentication fileContents = .error e) ∧
      authStateAfterEstablish auth fileContents = auth) ∧
    (pyStartsWith (String.mk bareL) "AAAAB3NzaC1yc2E" = true →
      setSSH fileContents = .ok (String.mk bareL) ∧
      authStateAfterEstablish auth fileContents = some (String.mk bareL)) := by
  constructor
  · intro hb
    have hss : setSSH fileContents = .error (.assertionError (String.mk bareL)) := by
      unfold setSSH
      rw [hbare]
      simp [hb]
    refine ⟨⟨_, hss⟩, ⟨AuthError.assertionError (String.mk bareL), ?_⟩, ?_⟩
    · unfold setLeaderWorkerAuthentication
      rw [hss]
      rfl
    · unfold authStateAfterEstablish setLeaderWorkerAuthentication
      rw [hss]
      rfl
  · intro hb
    have hss : setSSH fileContents = .ok (String.mk bareL) := by
      unfold setSSH
      rw [hbare]
      simp [hb]
    refine ⟨hss, ?_⟩
    unfold authStateAfterEstablish setLeaderWorkerAuthentication
    rw [hss]
    rfl

/-- C6 witness: a key with the wrong prefix is rejected and the old state
survives; a correct key is stripped, returned and stored. -/
theorem claim_C6_witness :
    ((∃ e, setSSH "ssh-rsa BBBB root@host" = .error e) ∧
     (∃ e, setLeaderWorkerAuthentication "ssh-rsa BBBB root@host" = .error e) ∧
     authStateAfterEstablish (some "old") "ssh-rsa BBBB root@host" = some "old") ∧
    (setSSH "ssh-rsa AAAAB3NzaC1yc2Exyz root@host" = .ok "AAAAB3NzaC1yc2Exyz" ∧
     authStateAfterEstablish none "ssh-rsa AAAAB3NzaC1yc2Exyz root@host" =
       some "AAAAB3NzaC1yc2Exyz") := by
  constructor
  · exact (claim_C6 (some "old") "ssh-rsa BBBB root@host" "BBBB".toList (by decide)).1
      (by decide)
  · exact (claim_C6 none "ssh-rsa AAAAB3NzaC1yc2Exyz root@host"
      "AAAAB3NzaC1yc2Exyz".toList (by decide)).2 (by decide)

theorem ne_pe_of_eq_mem (s : String) (h : Char.ofNat 61 ∈ s.data) : s ≠ "-pe" := by
  intro he
  subst he
  revert h
  decide

theorem toil_job_ne_pe (jobID : Nat) : ("toil_job_" ++ toString jobID) ≠ "-pe" := by
  intro he
  have hlen : ("toil_job_" ++ toString jobID).length = ("-pe" : String).length := by rw [he]
  rw [String.length_append] at hlen
  have h9 : ("toil_job_" : String).length = 9 := rfl
  have h3 : ("-pe" : String).length = 3 := rfl
  omega

theorem mem_qsubBase_ne_pe (jobID : Nat) (x : String) (hx : x ∈ qsubBase jobID) :
    x ≠ "-pe" := by
  simp only [qsubBase, List.mem_cons, List.not_mem_nil, or_false] at hx
  rcases hx with h|h|h|h|h|h|h|h|h|h
  · subst h; decide
  · subst h; decide
  · subst h; decide
  · subst h; decide
  · subst h; decide
  · subst h; decide
  · subst h; decide
  · subst h; decide
  · subst h; decide
  · subst h; exact toil_job_ne_pe jobID

theorem joinWith_cons_ex (sep x : String) (xs : List String) :
    ∃ r, joinWith sep (x :: xs) = x ++ r := by
  cases xs with
  | nil => exact ⟨"", (String.append_empty x).symm⟩
  | cons y ys =>
    refine ⟨sep ++ joinWith sep (y :: ys), ?_⟩
    show x ++ sep ++ joinWith sep (y :: ys) = x ++ (sep ++ joinWith sep (y :: ys))
    rw [String.append_assoc]

theorem mem_envArgs_ne_pe (environment : List (String × String)) (x : String)
    (hx : x ∈ envArgs environment) : x ≠ "-pe" := by
  unfold envArgs at hx
  by_cases he : environment.isEmpty
  · rw [if_pos he] at hx
    exact absurd hx (List.not_mem_nil x)
  · rw [if_neg he] at hx
    rcases List.mem_cons.mp hx with h | h
    · subst h; decide
    · have h2 : x = joinWith ","
          (environment.map (fun kv => kv.1 ++ "=" ++ shlexQuote kv.2)) := by
        simpa using h
      subst h2
      cases environment with
      | nil => simp at he
      | cons kv tl =>
        apply ne_pe_of_eq_mem
        rw [List.map_cons]
        obtain ⟨r, hr⟩ := joinWith_cons_ex ","
          (kv.1 ++ "=" ++ shlexQuote kv.2) (tl.map (fun kv => kv.1 ++ "=" ++ shlexQuote kv.2))
        rw [hr]
        have hf : Char.ofNat 61 ∈ ("=" : String).data := by decide
        simp only [String.data_append, List.mem_append]
        tauto

theorem mem_memPart_ne_pe (manualMemArgs : Bool) (sgeArgs : Option String)
    (mem : Option Nat) (reqline : List String)
    (hreq : memReqline manualMemArgs sgeArgs mem = .ok reqline) (x : String)
    (hx : x ∈ (if reqline.length > 0 then ["-hard", "-l", joinWith "," reqline] else [])) :
    x ≠ "-pe" := by
  unfold memReqline at hreq
  cases mem with
  | none =>
    have hr : reqline = [] := by
      have := hreq
      simp at this
      exact this
    subst hr
    simp at hx
  | some m =>
    by_cases hman : manualMemArgs
    · rw [hman] at hreq
      simp only [Bool.not_true, Bool.false_eq_true, if_false] at hreq
      by_cases htr : pyTruthy sgeArgs = true
      · rw [htr] at hreq
        simp only [Bool.not_true, Bool.false_eq_true, if_false] at hreq
        have hr : reqline = [] := by
          simp at hreq
          exact hreq
        subst hr
        simp at hx
      · have hf : pyTruthy sgeArgs = false := Bool.eq_false_iff.mpr htr
        rw [hf] at hreq
        simp at hreq
    · have hmf : manualMemArgs = false := Bool.eq_false_iff.mpr hman
      rw [hmf] at hreq
      simp only [Bool.not_false, if_true] at hreq
      have hr : reqline =
          ["vf=" ++ (toString (m / 1024) ++ "K"), "h_vmem=" ++ (toString (m / 1024) ++ "K")] := by
        simp at hreq
        exact hreq.symm
      subst hr
      simp only [List.length_cons, List.length_nil] at hx
      rw [if_pos (by omega)] at hx
      rcases List.mem_cons.mp hx with h | h
      · subst h; decide
      rcases List.mem_cons.mp h with h2 | h2
      · subst h2; decide
      have h3 : x = joinWith ","
          ["vf=" ++ (toString (m / 1024) ++ "K"), "h_vmem=" ++ (toString (m / 1024) ++ "K")] := by
        simpa using h2
      subst h3
      apply ne_pe_of_eq_mem
      show Char.ofNat 61 ∈
        ("vf=" ++ (toString (m / 1024) ++ "K") ++ "," ++
         ("h_vmem=" ++ (toString (m / 1024) ++ "K"))).data
      have hf : Char.ofNat 61 ∈ ("vf=" : String).data := by decide
      simp only [String.data_append, List.mem_append]
      tauto

theorem mem_sgeExtra_ne_pe (sgeArgs : Option String) (extra : List String)
    (hex : sgeExtraArgs sgeArgs = .ok extra) (x : String) (hx : x ∈ extra) :
    x ≠ "-pe" := by
  unfold sgeExtraArgs at hex
  by_cases ht : pyTruthy sgeArgs = true
  · rw [if_pos ht] at hex
    cases hfind : ((pySplitWs (sgeArgs.getD "").toList).map (fun t => String.mk t)).find?
        (fun a => pyStartsWith a "vf=" || pyStartsWith a "h_vmem=" || pyStartsWith a "-pe") with
    | some a => rw [hfind] at hex; exact absurd hex (by simp)
    | none =>
      rw [hfind] at hex
      have hex2 : (pySplitWs (sgeArgs.getD "").toList).map (fun t => String.mk t) = extra := by
        simpa using hex
      rw [hex2] at hfind
      intro he
      subst he
      exact List.find?_eq_none.mp hfind "-pe" hx (by decide)
  · rw [if_neg ht] at hex
    have hex2 : extra = [] := by
      simp at hex
      exact hex
    subst hex2
    simp at hx

theorem peArgs_ok_nil (pe : Option String) (cpu : Option ℚ)
    (hcpu : cpu = none ∨ ∃ c, cpu = some c ∧ c ≤ 1) : peArgs pe cpu = .ok [] := by
  rcases hcpu with h | ⟨c, hc, hle⟩
  · subst h; cases pe <;> rfl
  · subst hc
    have hn : ¬ (c > 1) := not_lt.mpr hle
    cases pe with
    | none =>
      simp only [peArgs]
      rw [if_neg hn]
    | some p =>
      simp only [peArgs]
      rw [if_neg hn]

theorem prepareQsub_ok_shape (env : QsubEnv) (cpu : Option ℚ) (mem : Option Nat)
    (jobID : Nat) (line : List String)
    (h : prepareQsub env cpu mem jobID = .ok line) :
    ∃ reqline extra peA,
      memReqline env.manualMemArgs env.sgeArgs mem = .ok reqline ∧
      sgeExtraArgs env.sgeArgs = .ok extra ∧
      peArgs env.pe cpu = .ok peA ∧
      line = qsubBase jobID ++ envArgs env.environment ++
        (if reqline.length > 0 then ["-hard", "-l", joinWith "," reqline] else []) ++
        extra ++ peA ++ ["-o", env.stdoutfile, "-e", env.stderrfile] := by
  unfold prepareQsub at h
  cases h1 : memReqline env.manualMemArgs env.sgeArgs mem with
  | error e => rw [h1] at h; exact absurd h (by simp [Bind.bind, Except.bind])
  | ok reqline =>
    rw [h1] at h
    cases h2 : sgeExtraArgs env.sgeArgs with
    | error e => rw [h2] at h; exact absurd h (by simp [Bind.bind, Except.bind])
    | ok extra =>
      rw [h2] at h
      cases h3 : peArgs env.pe cpu with
      | error e => rw [h3] at h; exact absurd h (by simp [Bind.bind, Except.bind])
      | ok peA =>
        rw [h3] at h
        simp only [Bind.bind, Except.bind, Except.ok.injEq] at h
        exact ⟨reqline, extra, peA, rfl, rfl, rfl, h.symm⟩

/-- C9: a cpu request above 1 without a configured parallel environment is
a hard configuration error; with cpu 1 or absent the built command line
contains no `-pe` argument at all; with cpu above 1 and a configured
parallel environment, `-pe <pe> <ceil(cpu)>` is appended (just before the
output-file arguments). -/
theorem claim_C9 (env : QsubEnv) (cpu : Option ℚ) (mem : Option Nat) (jobID : Nat) :
    ((∃ c, cpu = some c ∧ c > 1) → env.pe = none →
      ∃ e, prepareQsub env cpu mem jobID = .error e) ∧
    ((cpu = none ∨ ∃ c, cpu = some c ∧ c ≤ 1) →
      env.stdoutfile ≠ "-pe" → env.stderrfile ≠ "-pe" →
      ∀ line, prepareQsub env cpu mem jobID = .ok line → "-pe" ∉ line) ∧
    (∀ c p, cpu = some c → c > 1 → env.pe = some p →
      ∀ line, prepareQsub env cpu mem jobID = .ok line →
      ∃ front, line = front ++
        ["-pe", p, toString c.ceil, "-o", env.stdoutfile, "-e", env.stderrfile]) := by
  refine ⟨?_, ?_, ?_⟩
  · rintro ⟨c, hc, hgt⟩ hpe
    subst hc
    unfold prepareQsub
    cases h1 : memReqline env.manualMemArgs env.sgeArgs mem with
    | error e => exact ⟨e, by simp [Bind.bind, Except.bind]⟩
    | ok reqline =>
      cases h2 : sgeExtraArgs env.sgeArgs with
      | error e => exact ⟨e, by simp [Bind.bind, Except.bind]⟩
      | ok extra =>
        have h3 : peArgs env.pe (some c) = .error
            "must specify PE in TOIL_GRIDENGINE_PE environment variable when using multiple CPUs." := by
          rw [hpe]
          simp only [peArgs]
          rw [if_pos hgt]
        exact ⟨"must specify PE in TOIL_GRIDENGINE_PE environment variable when using multiple CPUs.",
          by simp [Bind.bind, Except.bind, h3]⟩
  · intro hcpu hso hse line hline
    obtain ⟨reqline, extra, peA, h1, h2, h3, hshape⟩ :=
      prepareQsub_ok_shape env cpu mem jobID line hline
    have hpe0 : peA = [] := by
      rw [peArgs_ok_nil env.pe cpu hcpu] at h3
      simpa using h3.symm
    subst hpe0
    subst hshape
    intro hmem
    simp only [List.append_nil, List.mem_append] at hmem
    rcases hmem with ((((hb | hv) | hm) | hx) | ht)
    · exact absurd rfl (mem_qsubBase_ne_pe jobID "-pe" hb)
    · exact absurd rfl (mem_envArgs_ne_pe env.environment "-pe" hv)
    · exact absurd rfl
        (mem_memPart_ne_pe env.manualMemArgs env.sgeArgs mem reqline h1 "-pe" hm)
    · exact absurd rfl (mem_sgeExtra_ne_pe env.sgeArgs extra h2 "-pe" hx)
    · rcases List.mem_cons.mp ht with h | h
      · exact absurd h.symm (by decide)
      rcases List.mem_cons.mp h with h | h
      · exact hso h.symm
      rcases List.mem_cons.mp h with h | h
      · exact absurd h.symm (by decide)
      rcases List.mem_cons.mp h with h | h
      · exact hse h.symm
      · simp at h
  · intro c p hc hgt hpe line hline
    subst hc
    obtain ⟨reqline, extra, peA, h1, h2, h3, hshape⟩ :=
      prepareQsub_ok_shape env (some c) mem jobID line hline
    have hpeA : peA = ["-pe", p, toString c.ceil] := by
      rw [hpe] at h3
      simp only [peArgs] at h3
      rw [if_pos hgt] at h3
      simpa using h3.symm
    subst hpeA
    subst hshape
    refine ⟨qsubBase jobID ++ envArgs env.environment ++
      (if reqline.length > 0 then ["-hard", "-l", joinWith "," reqline] else []) ++
      extra, ?_⟩
    rw [List.append_assoc]
    rfl

/-- C9 witness: with cpu 4 and no parallel environment the submission
errors; with cpu 1 the built line contains no `-pe`; with cpu 4 and
`TOIL_GRIDENGINE_PE=smp` the line ends in `-pe smp 4 -o ... -e ...`. -/
theorem claim_C9_witness :
    (∃ e, prepareQsub (QsubEnv.mk false none none [] "/tmp/o" "/tmp/e") (some 4) none 7 =
      .error e) ∧
    ("-pe" ∉ ["qsub", "-V", "-b", "y", "-terse", "-j", "y", "-cwd", "-N", "toil_job_7",
      "-o", "/tmp/o", "-e", "/tmp/e"]) ∧
    (∃ front, (["qsub", "-V", "-b", "y", "-terse", "-j", "y", "-cwd", "-N", "toil_job_7",
      "-pe", "smp", "4", "-o", "/tmp/o", "-e", "/tmp/e"] : List String) = front ++
        ["-pe", "smp", toString (4 : ℚ).ceil, "-o", "/tmp/o", "-e", "/tmp/e"]) := by
  refine ⟨?_, ?_, ?_⟩
  · exact (claim_C9 (QsubEnv.mk false none none [] "/tmp/o" "/tmp/e") (some 4) none 7).1
      ⟨4, rfl, by norm_num⟩ rfl
  · exact (claim_C9 (QsubEnv.mk false none none [] "/tmp/o" "/tmp/e") (some 1) none 7).2.1
      (Or.inr ⟨1, rfl, le_refl 1⟩) (by decide) (by decide)
      ["qsub", "-V", "-b", "y", "-terse", "-j", "y", "-cwd", "-N", "toil_job_7",
       "-o", "/tmp/o", "-e", "/tmp/e"] (by rfl)
  · exact (claim_C9 (QsubEnv.mk false none (some "smp") [] "/tmp/o" "/tmp/e")
      (some 4) none 7).2.2 4 "smp" rfl (by norm_num) rfl
      ["qsub", "-V", "-b", "y", "-terse", "-j", "y", "-cwd", "-N", "toil_job_7",
       "-pe", "smp", "4", "-o", "/tmp/o", "-e", "/tmp/e"] (by rfl)

end Toil
